import Mathlib

/-!
# Verification of the swc bundler core against its specification

Shallow embedding of the parts of the repository that the claims touch:

* `src/bundler/src/bundler/mod.rs` — the `Bundler` facade: `bundle`,
  the `Handler` implementation (`resolve`, `get_module_info`).
* `src/bundler/src/bundler/import/mod.rs` — `extract_import_info` and the
  context-adding `Bundler::resolve`.
* `src/bundler/analysis/src/handler.rs` — the `Handler` trait contract.
* `src/ecmascript/loader/src/resolvers/node.rs` — `NodeModulesResolver`.

Conventions of the embedding:

* `anyhow::Error` with its context chain is modelled as `Err := List String`,
  outermost context first; `.context(msg)` / `.with_context(|| msg)` cons `msg`
  onto the chain.
* Filesystem state consulted by the node resolver is abstracted into an
  explicit `FS` record of predicates, passed to every function that the Rust
  code runs against the real filesystem.
* Rust paths are modelled as strings with `/`-separated components.
* Interior mutability (the registry behind `&self`) is modelled by explicit
  state passing.
-/

/-- `swc_common::FileName`, restricted to the variants the bundler core uses:
a canonicalized real path, a synthetic custom string, or an anonymous
placeholder.  The resolvers match only on `Real` and treat every other
variant alike, so the remaining variants are represented by `Anon`. -/
inductive FileName where
  | Real (path : String)
  | Custom (s : String)
  | Anon
deriving DecidableEq, Repr

/-- `swc_ecma_ast::TargetEnv` (node.rs). -/
inductive TargetEnv where
  | Node
  | Browser
deriving DecidableEq, Repr

/-- `anyhow::Error` as its chain of context messages, outermost first. -/
abbrev Err := List String

/-- A fully analyzed module record, as far as `bundle` observes it.  The
content is irrelevant to the claims about the driver, only identity is kept. -/
structure TransformedModule where
  id : Nat
deriving DecidableEq, Repr

/-- `Bundle` (mod.rs, lines 65-71), with the merged AST abstracted. -/
structure Bundle where
  id : Nat
deriving DecidableEq, Repr

/-- Outcome of `Bundler::bundle`: a value, an `anyhow::Error`, or a Rust
panic (from the `m.unwrap()` at mod.rs line 166). -/
inductive Outcome (α : Type) where
  | ok (a : α)
  | error (e : Err)
  | panicked
deriving DecidableEq, Repr

/-- The operations `Bundler::bundle` composes.  `load_transformed`, `chunk`
and `finalize` live in sibling modules not included in the sources, so they
enter the embedding as abstract functions; `bundle` itself (mod.rs, lines
147-178) is translated exactly. -/
structure BundlerOps where
  load_transformed : FileName → Except Err (Option TransformedModule)
  chunk : List (String × TransformedModule) → Except Err (List Bundle)
  finalize : List Bundle → Except Err (List Bundle)

/-- The first half of `Bundler::bundle` (mod.rs, lines 148-156): map over the
entries, run `load_transformed` on each with the context
"load_transformed failed", and collect every per-entry `Result` into a
vector before any error is examined. -/
def Bundler.bundleResults (ops : BundlerOps) (entries : List (String × FileName)) :
    List (Except Err (String × Option TransformedModule)) :=
  entries.map fun e =>
    match ops.load_transformed e.2 with
    | .error err => .error ("load_transformed failed" :: err)
    | .ok res => .ok (e.1, res)

/-- The `local` block of `Bundler::bundle` (mod.rs, lines 161-172): walk the
collected results in order; `res?` propagates the first error, and
`m.unwrap()` panics on the first `None`. -/
def Bundler.buildLocal :
    List (Except Err (String × Option TransformedModule)) →
    Outcome (List (String × TransformedModule))
  | [] => .ok []
  | .error e :: _ => .error e
  | .ok (_, none) :: _ => .panicked
  | .ok (n, some m) :: rest =>
    match Bundler.buildLocal rest with
    | .ok l => .ok ((n, m) :: l)
    | .error e => .error e
    | .panicked => .panicked

/-- `Bundler::bundle` (mod.rs, lines 147-178): load every entry, build the
`local` map, then `chunk` and `finalize`, each error propagating via `?`.
(The Rust `entries` is a `HashMap`; the embedding fixes one iteration
order as a list of pairs.) -/
def Bundler.bundle (ops : BundlerOps) (entries : List (String × FileName)) :
    Outcome (List Bundle) :=
  match Bundler.buildLocal (Bundler.bundleResults ops entries) with
  | .panicked => .panicked
  | .error e => .error e
  | .ok locals =>
    match ops.chunk locals with
    | .error e => .error e
    | .ok bundles =>
      match ops.finalize bundles with
      | .error e => .error e
      | .ok bundles => .ok bundles

/-- `Handler::resolve` for `Bundler` (mod.rs, lines 199-201):
`self.resolver.resolve(base, src).ok()`.  The underlying resolver is an
abstract parameter, as in the Rust type parameter `R: Resolve`. -/
def Handler.resolve (resolver : FileName → String → Except Err FileName)
    (base : FileName) (src : String) : Option FileName :=
  match resolver base src with
  | .ok v => some v
  | .error _ => none

/-- `RawImports`, the record accumulated by the import handler.  Its
definition lives in the analysis crate outside the sources; the claims about
the two-phase driver only move it around, so it is kept abstract as a list
of accumulated entries. -/
structure RawImports where
  items : List Bool
deriving DecidableEq, Repr

instance : Inhabited RawImports := ⟨⟨[]⟩⟩

/-- The state of `ImportHandler` as constructed at import/mod.rs lines
31-42.  The visitor implementation is outside the sources, so field types
beyond those fixed by the construction site are representative. -/
structure ImportHandler where
  module_ctxt : Nat
  top_level : Bool
  info : RawImports
  usages : List (Nat × Nat)
  imported_idents : List (Nat × Nat)
  deglob_phase : Bool
  idents_to_deglob : List Nat
  in_obj_of_member : Bool
deriving DecidableEq, Repr

/-- The initial `ImportHandler` of `extract_import_info` (import/mod.rs,
lines 31-42): `deglob_phase: false` and empty accumulators, with
`module_ctxt` obtained by applying the module's local mark. -/
def ImportHandler.init (module_local_mark : Nat) : ImportHandler where
  module_ctxt := module_local_mark
  top_level := false
  info := default
  usages := []
  imported_idents := []
  deglob_phase := false
  idents_to_deglob := []
  in_obj_of_member := false

/-- `Bundler::extract_import_info` (import/mod.rs, lines 24-49).  The
visitor (`VisitMut for ImportHandler`) is outside the sources and enters as
the abstract parameter `visit`, acting on the handler state and the module
body (of abstract type `β`, mutated in place in Rust and threaded here):
build the handler, visit the body, flip `deglob_phase` to `true`, visit the
(already rewritten) body again, and return the accumulated `info`. -/
def Bundler.extract_import_info {β : Type}
    (visit : ImportHandler → β → ImportHandler × β)
    (module_local_mark : Nat) (body : β) : RawImports × β :=
  let v := ImportHandler.init module_local_mark
  let p1 := visit v body
  let v1 := { p1.1 with deglob_phase := true }
  let p2 := visit v1 p1.2
  (p2.1.info, p2.2)

/-- The `(ModuleId, local_mark, export_mark)` triple held by the registry
for one file. -/
structure ModuleData where
  module_id : Nat
  local_mark : Nat
  export_mark : Nat
deriving DecidableEq, Repr

/-- State of the module id generator: the table of known files and the
fresh-id / fresh-mark counters. -/
structure GenState where
  table : List (FileName × ModuleData)
  next_id : Nat
  next_mark : Nat
deriving DecidableEq, Repr

/-- Association-list lookup used by the generator model. -/
def lookupPath : List (FileName × ModuleData) → FileName → Option ModuleData
  | [], _ => none
  | (k, v) :: rest, p => if k = p then some v else lookupPath rest p

/-- Modelled from the spec: `ModuleIdGenerator::gen` (the registry query
behind `Scope`, in scope.rs which is not among the sources).  Spec §4.1:
"`id_for(path) → (ModuleId, local_mark, export_mark)`: idempotent; if the
path is unknown, atomically allocate a fresh id and two fresh marks, insert,
and return them; otherwise return the existing triple." -/
def ModuleIdGenerator.gen (st : GenState) (path : FileName) : ModuleData × GenState :=
  match lookupPath st.table path with
  | some d => (d, st)
  | none =>
    let d : ModuleData := ⟨st.next_id, st.next_mark, st.next_mark + 1⟩
    (d, ⟨st.table ++ [(path, d)], st.next_id + 1, st.next_mark + 2⟩)

/-- `Handler::get_module_info` for `Bundler` (mod.rs, lines 203-205):
delegates to `self.scope.module_id_gen.gen(path)`.  The registry state
hidden behind `&self` is passed explicitly. -/
def Handler.get_module_info (st : GenState) (path : FileName) : ModuleData × GenState :=
  ModuleIdGenerator.gen st path

/-- `Bundler::resolve` (import/mod.rs, lines 51-66): run the underlying
resolver and, on failure, wrap the error with the context
`failed to resolve {specifier} from {base}`.  `showName` stands for the
`Display` rendering of `FileName`, which is defined in swc_common outside
the sources.  (The `Lrc::new` wrapping of the success value carries no
information and is dropped.) -/
def Bundler.resolve (resolver : FileName → String → Except Err FileName)
    (showName : FileName → String) (base : FileName) (module_specifier : String) :
    Except Err FileName :=
  match resolver base module_specifier with
  | .error e =>
    .error (("failed to resolve " ++ module_specifier ++ " from " ++ showName base) :: e)
  | .ok path => .ok path

/-- `PackageJson` (node.rs, lines 89-97): the three fields deserialized from
a package.json file. -/
structure PackageJson where
  esnext : Option String
  main : Option String
  browser : Option String
deriving DecidableEq, Repr

/-- The filesystem state the node resolver consults, abstracted to the
queries the code makes.  `readPackage` models `File::open` +
`serde_json::from_reader` (node.rs, lines 158-161), with any open or
deserialization context already inside the returned error chain. -/
structure FS where
  isFile : String → Bool
  isDir : String → Bool
  canonicalize : String → Except Err String
  readPackage : String → Except Err PackageJson

/-- Split a character list at `/` separators (kernel-reducible
replacement for `String.splitOn "/"`). -/
def splitSlash : List Char → List (List Char)
  | [] => [[]]
  | c :: rest =>
    if c = '/' then [] :: splitSlash rest
    else
      match splitSlash rest with
      | [] => [[c]]
      | g :: gs => (c :: g) :: gs

/-- The `/`-separated components of a path string. -/
def pathComps (p : String) : List String :=
  (splitSlash p.data).map String.mk

/-- Join components back with `/` separators. -/
def joinComps : List String → String
  | [] => ""
  | [c] => c
  | c :: rest => c ++ "/" ++ joinComps rest

/-- Predicate on a path string: starts at the filesystem root.  Models
`Path::is_absolute` for unix-style paths. -/
def isAbsolutePath (p : String) : Bool :=
  match p.data with
  | c :: _ => c = '/'
  | [] => false

/-- Whether the path string ends in a `/`. -/
def endsWithSlash (p : String) : Bool := p.data.getLast? = some '/'

/-- Models `Path::parent`: drop the last component; `None` for the root and
the empty path. -/
def parentPath (p : String) : Option String :=
  if p = "" ∨ p = "/" then none
  else
    let init := (pathComps p).dropLast
    if init = [""] then some "/"
    else some (joinComps init)

/-- Models `Path::join` for the joins the resolver performs. -/
def joinPath (a b : String) : String :=
  if isAbsolutePath b then b
  else if a = "" then b
  else if endsWithSlash a then a ++ b
  else a ++ "/" ++ b

/-- Models `Path::file_name`: the last component, `None` when that
component is empty, `.` or `..`. -/
def fileNameOf (p : String) : Option String :=
  match (pathComps p).getLast? with
  | some last => if last = "" || last = "." || last = ".." then none else some last
  | none => none

/-- Models `Path::set_file_name`: replace the last component. -/
def setFileName (p newname : String) : String :=
  match (pathComps p).dropLast with
  | [] => newname
  | [""] => "/" ++ newname
  | init => joinComps init ++ "/" ++ newname

/-- `EXTENSIONS` (node.rs, line 104). -/
def EXTENSIONS : List String := ["ts", "tsx", "js", "jsx", "json", "node"]

/-- The Node core (builtin) module names (node.rs, lines 19-87). -/
def coreModules : List String :=
  ["_http_agent", "_http_client", "_http_common", "_http_incoming",
   "_http_outgoing", "_http_server", "_stream_duplex", "_stream_passthrough",
   "_stream_readable", "_stream_transform", "_stream_wrap", "_stream_writable",
   "_tls_common", "_tls_wrap", "assert", "assert/strict", "async_hooks",
   "buffer", "child_process", "cluster", "console", "constants", "crypto",
   "dgram", "diagnostics_channel", "dns", "dns/promises", "domain", "events",
   "fs", "fs/promises", "http", "http2", "https", "inspector", "module",
   "net", "os", "path", "path/posix", "path/win32", "perf_hooks", "process",
   "punycode", "querystring", "readline", "repl", "stream", "stream/promises",
   "string_decoder", "sys", "timers", "timers/promises", "tls", "trace_events",
   "tty", "url", "util", "util/types", "v8", "vm", "wasi", "worker_threads",
   "zlib"]

/-- `is_core_module` (node.rs, lines 19-87): membership in the builtin
module list. -/
def is_core_module (s : String) : Bool := coreModules.contains s

/-- The extension loop of `resolve_as_file` (node.rs, lines 125-136):
try `name.ext` for each extension, else `file not found`. -/
def tryFileExts (fs : FS) (path name : String) : List String → Except Err String
  | [] => .error ["file not found: " ++ path]
  | ext :: rest =>
    let ext_path := setFileName path (name ++ "." ++ ext)
    if fs.isFile ext_path then .ok ext_path else tryFileExts fs path name rest

/-- `NodeModulesResolver::resolve_as_file` (node.rs, lines 119-137). -/
def resolve_as_file (fs : FS) (path : String) : Except Err String :=
  if fs.isFile path then .ok path
  else
    match fileNameOf path with
    | some name => tryFileExts fs path name EXTENSIONS
    | none => .error ["file not found: " ++ path]

/-- The index loop of `resolve_index` (node.rs, lines 189-196). -/
def tryIndexExts (fs : FS) (path : String) : List String → Except Err String
  | [] => .error ["index not found: " ++ path]
  | ext :: rest =>
    let ext_path := joinPath path ("index." ++ ext)
    if fs.isFile ext_path then .ok ext_path else tryIndexExts fs path rest

/-- `NodeModulesResolver::resolve_index` (node.rs, lines 185-197). -/
def resolve_index (fs : FS) (path : String) : Except Err String :=
  tryIndexExts fs path EXTENSIONS

mutual

/-- `NodeModulesResolver::resolve_as_directory` (node.rs, lines 141-153).
The Rust recursion through package.json `main` entries is bounded only by
the filesystem; the embedding adds explicit fuel, consumed once per
package.json indirection. -/
def resolve_as_directory (fs : FS) (env : TargetEnv) :
    Nat → String → Except Err String
  | 0, path => .error ["package recursion limit: " ++ path]
  | fuel + 1, path =>
    let pkg_path := joinPath path "package.json"
    if fs.isFile pkg_path then
      match resolve_package_main fs env fuel pkg_path with
      | .ok m => .ok m
      | .error _ => resolve_index fs path
    else resolve_index fs path

/-- `NodeModulesResolver::resolve_package_main` (node.rs, lines 156-182):
pick the first populated main field for the target environment and resolve
it as a file, else as a directory. -/
def resolve_package_main (fs : FS) (env : TargetEnv) :
    Nat → String → Except Err String
  | 0, pkg_path => .error ["package recursion limit: " ++ pkg_path]
  | fuel + 1, pkg_path =>
    let pkg_dir := (parentPath pkg_path).getD "/"
    match fs.readPackage pkg_path with
    | .error e => .error e
    | .ok pkg =>
      let main_fields :=
        match env with
        | .Node => [pkg.esnext, pkg.main]
        | .Browser => [pkg.browser, pkg.esnext, pkg.main]
      match main_fields.findSome? id with
      | some target =>
        let path := joinPath pkg_dir target
        match resolve_as_file fs path with
        | .ok r => .ok r
        | .error _ => resolve_as_directory fs env fuel path
      | none => .error ["package.json does not contain a \"main\" string"]

end

/-- Fuel for the package.json indirection chain; the claims never exercise
more than one indirection. -/
def packageFuel : Nat := 64

/-- `NodeModulesResolver::resolve_node_modules` (node.rs, lines 200-216):
look for `node_modules/target` in `base_dir`, then walk up the parent
chain; `not found` at the root.  The Rust recursion is on the parent chain,
finite for real paths; the embedding adds fuel, one unit per parent step,
with the fuel-exhausted answer equal to the root answer. -/
def resolve_node_modules (fs : FS) (env : TargetEnv) :
    Nat → String → String → Except Err String
  | 0, _, _ => .error ["not found"]
  | fuel + 1, base_dir, target =>
    let node_modules := joinPath base_dir "node_modules"
    let attempt : Option String :=
      if fs.isDir node_modules then
        let path := joinPath node_modules target
        match resolve_as_file fs path with
        | .ok r => some r
        | .error _ =>
          match resolve_as_directory fs env packageFuel path with
          | .ok r => some r
          | .error _ => none
      else none
    match attempt with
    | some r => .ok r
    | none =>
      match parentPath base_dir with
      | some parent => resolve_node_modules fs env fuel parent target
      | none => .error ["not found"]

/-- `NodeModulesResolver::wrap` (node.rs, lines 112-115): canonicalize and
tag as `FileName::Real`. -/
def NodeModulesResolver.wrap (fs : FS) (path : String) : Except Err FileName :=
  match fs.canonicalize path with
  | .error e => .error ("failed to canonicalize" :: e)
  | .ok p => .ok (.Real p)

/-- Fuel for the node_modules parent walk from a given base directory: one
unit per component is enough, the base's length plus two is generous. -/
def nodeModulesFuel (base : String) : Nat := base.length + 2

/-- `Resolve::resolve` for `NodeModulesResolver` (node.rs, lines 219-266),
unix path branch: Node-env core modules short-circuit to a synthetic
`Custom` identity; otherwise the base must be a `Real` file; then absolute,
explicitly relative (`./`, `../`), and bare specifiers are resolved against
the abstract filesystem. -/
def NodeModulesResolver.resolve (env : TargetEnv) (fs : FS)
    (base : FileName) (target : String) : Except Err FileName :=
  if env = TargetEnv.Node ∧ is_core_module target = true then
    .ok (.Custom target)
  else
    match base with
    | .Real b =>
      if isAbsolutePath target then
        match resolve_as_file fs target with
        | .ok p => NodeModulesResolver.wrap fs p
        | .error _ =>
          match resolve_as_directory fs env packageFuel target with
          | .ok p => NodeModulesResolver.wrap fs p
          | .error e => .error e
      else
        let base_dir := (parentPath b).getD "."
        let first := ((pathComps target).headD "")
        if first = "." ∨ first = ".." then
          let path := joinPath base_dir target
          match resolve_as_file fs path with
          | .ok p => NodeModulesResolver.wrap fs p
          | .error _ =>
            match resolve_as_directory fs env packageFuel path with
            | .ok p => NodeModulesResolver.wrap fs p
            | .error e => .error e
        else
          match resolve_node_modules fs env (nodeModulesFuel b) base_dir target with
          | .ok p => NodeModulesResolver.wrap fs p
          | .error e => .error e
    | _ => .error ["node-resolver supports only files"]

/-- A finite module dependency graph, as the adjacency list of the
resolved import edges. -/
structure DepGraph where
  adj : List (FileName × List FileName)
deriving Repr

/-- The dependency list of a module in the graph. -/
def DepGraph.deps (g : DepGraph) (p : FileName) : List FileName :=
  match g.adj.find? (fun e => e.1 == p) with
  | some e => e.2
  | none => []

/-- Fuel-bounded reachability in the dependency graph. -/
def DepGraph.reachesFuel (g : DepGraph) : Nat → FileName → FileName → Bool
  | 0, a, b => a == b
  | n + 1, a, b => a == b || (g.deps a).any fun c => DepGraph.reachesFuel g n c b

/-- Reachability along import edges; a simple path visits each of the
`adj.length` listed modules at most once, so that length bounds the fuel. -/
def DepGraph.reaches (g : DepGraph) (a b : FileName) : Bool :=
  g.reachesFuel g.adj.length a b

/-- An entry participates in an entry-to-entry cycle: some other entry is
reachable from it and reaches back. -/
def entryCyclic (g : DepGraph) (entryPaths : List FileName) (p : FileName) : Bool :=
  decide (p ∈ entryPaths ∧
    ∃ q ∈ entryPaths, q ≠ p ∧ g.reaches p q = true ∧ g.reaches q p = true)

/-- Modelled from the spec: `load_transformed` (load.rs, not among the
sources).  Spec §4.4: resolve/load succeed here, the registry single-flight
guard "breaks the cycle by returning the in-progress entry's identity
pair"; the in-progress marker (`Ok(None)`) surfaces to `bundle` exactly
when the requested entry participates in an entry-to-entry cycle, while
dependency cycles among non-entry modules resolve to a published record
(`Ok(Some ..)`). -/
def load_transformed_spec (g : DepGraph) (entryPaths : List FileName)
    (path : FileName) : Except Err (Option TransformedModule) :=
  if entryCyclic g entryPaths path then .ok none else .ok (some ⟨0⟩)

/-- A trivial chunker for concrete scenarios: one bundle per entry. -/
def chunkOk : List (String × TransformedModule) → Except Err (List Bundle) :=
  fun locals => .ok (locals.map fun l => ⟨l.2.id⟩)

/-- A trivial finalizer for concrete scenarios. -/
def finalizeOk : List Bundle → Except Err (List Bundle) := fun bs => .ok bs

/-- Scenario: loading entry `/a.js` fails, every other path loads fine. -/
def opsOneFailure : BundlerOps where
  load_transformed := fun p =>
    if p = .Real "/a.js" then .error ["read error: /a.js"] else .ok (some ⟨1⟩)
  chunk := chunkOk
  finalize := finalizeOk

/-- Scenario: loading `/a.js` and `/b.js` both fail, with distinct
messages; every other path loads fine. -/
def opsTwoFailures : BundlerOps where
  load_transformed := fun p =>
    if p = .Real "/a.js" then .error ["read error: /a.js"]
    else if p = .Real "/b.js" then .error ["read error: /b.js"]
    else .ok (some ⟨1⟩)
  chunk := chunkOk
  finalize := finalizeOk

/-- The two-entry map `a ↦ /a.js, b ↦ /b.js`. -/
def entsTwo : List (String × FileName) :=
  [("a", .Real "/a.js"), ("b", .Real "/b.js")]

/-- Two entries importing each other. -/
def cyclicEntryGraph : DepGraph :=
  ⟨[(.Real "/a.js", [.Real "/b.js"]), (.Real "/b.js", [.Real "/a.js"])]⟩

/-- The `Display` rendering of `FileName` for concrete scenarios (defined
in swc_common, outside the sources): real paths and custom names render as
their string. -/
def showFileName : FileName → String
  | .Real p => p
  | .Custom s => s
  | .Anon => "<anon>"

/-- A resolver that fails on everything, with a fixed cause. -/
def failResolver : FileName → String → Except Err FileName :=
  fun _ _ => .error ["entry not found"]

/-- An empty filesystem: no files, no directories, canonicalization is the
identity, package.json never parses. -/
def fsEmpty : FS where
  isFile := fun _ => false
  isDir := fun _ => false
  canonicalize := fun p => .ok p
  readPackage := fun _ => .error ["failed to deserialize package.json"]

/-- A saturated filesystem: every path is both a file and a directory. -/
def fsFull : FS where
  isFile := fun _ => true
  isDir := fun _ => true
  canonicalize := fun p => .ok p
  readPackage := fun _ => .error ["failed to deserialize package.json"]

/-! ## Helper lemmas -/

theorem buildLocal_ne_ok_of_mem_error (e : Err) :
    ∀ (results : List (Except Err (String × Option TransformedModule))),
      Except.error e ∈ results → ∀ l, Bundler.buildLocal results ≠ Outcome.ok l := by
  intro results
  induction results with
  | nil => intro h; cases h
  | cons r rest ih =>
    intro h l hok
    match r, h with
    | .error e', _ => simp [Bundler.buildLocal] at hok
    | .ok (n, none), _ => simp [Bundler.buildLocal] at hok
    | .ok (n, some m), h =>
      have hm : Except.error e ∈ rest := by
        cases List.mem_cons.mp h with
        | inl h1 => cases h1
        | inr h2 => exact h2
      simp only [Bundler.buildLocal] at hok
      cases hb : Bundler.buildLocal rest with
      | ok l2 => exact ih hm l2 hb
      | error e2 => rw [hb] at hok; cases hok
      | panicked => rw [hb] at hok; cases hok

theorem buildLocal_ok_of_all_some :
    ∀ (results : List (Except Err (String × Option TransformedModule))),
      (∀ r ∈ results, ∃ n m, r = Except.ok (n, some m)) →
      ∃ l, Bundler.buildLocal results = Outcome.ok l := by
  intro results
  induction results with
  | nil => intro _; exact ⟨[], rfl⟩
  | cons r rest ih =>
    intro h
    obtain ⟨n, m, rfl⟩ := h r (List.mem_cons_self r rest)
    obtain ⟨l, hl⟩ := ih fun x hx => h x (List.mem_cons_of_mem _ hx)
    exact ⟨(n, m) :: l, by simp [Bundler.buildLocal, hl]⟩

theorem buildLocal_panicked_of_mem_none :
    ∀ (results : List (Except Err (String × Option TransformedModule))),
      (∀ r ∈ results, ∃ n m, r = Except.ok (n, m)) →
      (∃ n, Except.ok (n, (none : Option TransformedModule)) ∈ results) →
      Bundler.buildLocal results = Outcome.panicked := by
  intro results
  induction results with
  | nil =>
    rintro _ ⟨n, hn⟩
    cases hn
  | cons r rest ih =>
    rintro hall ⟨n, hn⟩
    obtain ⟨n', m', rfl⟩ := hall r (List.mem_cons_self r rest)
    match m' with
    | none => simp [Bundler.buildLocal]
    | some mm =>
      have hmem : Except.ok (n, (none : Option TransformedModule)) ∈ rest := by
        cases List.mem_cons.mp hn with
        | inl h1 => simp at h1
        | inr h2 => exact h2
      have hp := ih (fun x hx => hall x (List.mem_cons_of_mem _ hx)) ⟨n, hmem⟩
      simp [Bundler.buildLocal, hp]

theorem buildLocal_append_error (e : Err)
    (rest : List (Except Err (String × Option TransformedModule))) :
    ∀ (rs : List (Except Err (String × Option TransformedModule))),
      (∀ r ∈ rs, ∃ n m, r = Except.ok (n, some m)) →
      Bundler.buildLocal (rs ++ Except.error e :: rest) = Outcome.error e := by
  intro rs
  induction rs with
  | nil => intro _; rfl
  | cons r tail ih =>
    intro h
    obtain ⟨n, m, rfl⟩ := h r (List.mem_cons_self r tail)
    have ht := ih fun x hx => h x (List.mem_cons_of_mem _ hx)
    simp [Bundler.buildLocal, List.cons_append, ht]

/-! ## Claim theorems -/

/-- C3: the analyzer-facing `Handler::resolve` on `Bundler` never returns an
error (its return type is `Option FileName`); it returns `some path` exactly
when the underlying resolver succeeds with `path` and `none` exactly when
the underlying resolver fails. -/
theorem handler_resolve_matches_resolver
    (resolver : FileName → String → Except Err FileName)
    (base : FileName) (src : String) :
    (∀ p, Handler.resolve resolver base src = some p ↔ resolver base src = .ok p) ∧
    (Handler.resolve resolver base src = none ↔ ∃ e, resolver base src = .error e) := by
  constructor
  · intro p
    cases h : resolver base src with
    | ok v => simp [Handler.resolve, h]
    | error e => simp [Handler.resolve, h]
  · cases h : resolver base src with
    | ok v => simp [Handler.resolve, h]
    | error e =>
      constructor
      · intro _
        exact ⟨e, rfl⟩
      · intro _
        simp [Handler.resolve, h]

/-- C4: `extract_import_info` performs exactly two traversals of the module
body with the same handler — a collect phase with `deglob_phase = false`
(the handler's initial state) followed by a deglob phase with
`deglob_phase = true` over the body produced by the first traversal — and
returns the `RawImports` record accumulated by the handler.  The last
conjunct instruments the abstract visitor with a trace carried in the body:
the trace of an `extract_import_info` run is exactly `[false, true]`. -/
theorem extract_import_info_two_phase {β : Type}
    (visit : ImportHandler → β → ImportHandler × β)
    (module_local_mark : Nat) (body : β) :
    (ImportHandler.init module_local_mark).deglob_phase = false ∧
    Bundler.extract_import_info visit module_local_mark body =
      (let p1 := visit (ImportHandler.init module_local_mark) body
       let p2 := visit { p1.1 with deglob_phase := true } p1.2
       (p2.1.info, p2.2)) ∧
    Bundler.extract_import_info
      (fun s t => (s, t ++ [s.deglob_phase])) module_local_mark
      ([] : List Bool) =
      (default, [false, true]) :=
  ⟨rfl, rfl, rfl⟩

/-- Appending an unseen key to the lookup table makes it found. -/
theorem lookupPath_append_self (l : List (FileName × ModuleData)) (p : FileName)
    (d : ModuleData) (h : lookupPath l p = none) :
    lookupPath (l ++ [(p, d)]) p = some d := by
  induction l with
  | nil => simp [lookupPath]
  | cons kv tail ih =>
    obtain ⟨k, v⟩ := kv
    by_cases hk : k = p
    · simp [lookupPath, hk] at h
    · simp only [lookupPath, List.cons_append, if_neg hk] at h ⊢
      exact ih h

/-- C5: the registry query `get_module_info` is idempotent — a repeated call
for the same path returns the same `(ModuleId, local_mark, export_mark)`
triple and the same registry state — and allocates fresh identity (the
current id counter and two fresh marks) only when the path is unknown. -/
theorem get_module_info_idempotent (st : GenState) (path : FileName) :
    Handler.get_module_info (Handler.get_module_info st path).2 path =
      Handler.get_module_info st path ∧
    (lookupPath st.table path = none →
      (Handler.get_module_info st path).1 =
        ⟨st.next_id, st.next_mark, st.next_mark + 1⟩) := by
  simp only [Handler.get_module_info, ModuleIdGenerator.gen]
  cases h : lookupPath st.table path with
  | some d => simp [h]
  | none =>
    have h2 := lookupPath_append_self st.table path
      ⟨st.next_id, st.next_mark, st.next_mark + 1⟩ h
    simp [h, h2]

/-- Witness for C5: starting from the empty registry, the first query for
`/a.js` allocates `(0, 0, 1)` and the second query returns the same triple
and state. -/
theorem get_module_info_idempotent_witness :
    Handler.get_module_info
        (Handler.get_module_info ⟨[], 0, 0⟩ (FileName.Real "/a.js")).2
        (FileName.Real "/a.js") =
      Handler.get_module_info ⟨[], 0, 0⟩ (FileName.Real "/a.js") ∧
    (Handler.get_module_info ⟨[], 0, 0⟩ (FileName.Real "/a.js")).1 = ⟨0, 0, 1⟩ :=
  ⟨(get_module_info_idempotent ⟨[], 0, 0⟩ (FileName.Real "/a.js")).1,
   (get_module_info_idempotent ⟨[], 0, 0⟩ (FileName.Real "/a.js")).2 rfl⟩

/-- C7: when the underlying resolver fails for a specifier from a base,
`Bundler::resolve` returns an error whose context chain contains the
message `failed to resolve {specifier} from {base}` with the concrete
values substituted (it is the outermost context, pushed onto the
resolver's own chain). -/
theorem bundler_resolve_error_context
    (resolver : FileName → String → Except Err FileName)
    (showName : FileName → String) (base : FileName) (s : String) (e : Err)
    (h : resolver base s = .error e) :
    Bundler.resolve resolver showName base s =
      .error (("failed to resolve " ++ s ++ " from " ++ showName base) :: e) ∧
    ("failed to resolve " ++ s ++ " from " ++ showName base) ∈
      (("failed to resolve " ++ s ++ " from " ++ showName base) :: e) := by
  refine ⟨?_, List.mem_cons_self _ _⟩
  simp [Bundler.resolve, h]

/-- Witness for C7: a resolver failure for `./c` from `/a/b.js` produces
the context chain headed by `failed to resolve ./c from /a/b.js`. -/
theorem bundler_resolve_error_context_witness :
    Bundler.resolve failResolver showFileName (FileName.Real "/a/b.js") "./c" =
      .error ["failed to resolve ./c from /a/b.js", "entry not found"] ∧
    "failed to resolve ./c from /a/b.js" ∈
      (["failed to resolve ./c from /a/b.js", "entry not found"] : List String) :=
  bundler_resolve_error_context failResolver showFileName
    (FileName.Real "/a/b.js") "./c" ["entry not found"] rfl

/-- Counterexample to C1 as stated: with entry `a ↦ /a.js` failing to load
and entry `b ↦ /b.js` loading fine, `bundle` returns the error — no bundle
for `b` (or any entry) appears in the result, so the failure does not abort
only the failing entry. -/
theorem bundle_single_failure_counterexample :
    Bundler.bundle opsOneFailure entsTwo =
      Outcome.error ["load_transformed failed", "read error: /a.js"] ∧
    ∀ bs, Bundler.bundle opsOneFailure entsTwo ≠ Outcome.ok bs := by
  refine ⟨by decide, ?_⟩
  intro bs h
  rw [show Bundler.bundle opsOneFailure entsTwo =
      Outcome.error ["load_transformed failed", "read error: /a.js"] by decide] at h
  cases h

/-- C1 as amended: a resolve/load failure in any entry aborts the whole
`bundle` call, not just that entry — every entry is still attempted (the
collected result vector has one slot per entry), but the call returns
without producing any entry's bundle. -/
theorem bundle_entry_failure_yields_no_bundles
    (ops : BundlerOps) (entries : List (String × FileName))
    (name : String) (path : FileName) (e : Err)
    (hmem : (name, path) ∈ entries)
    (hfail : ops.load_transformed path = .error e) :
    (Bundler.bundleResults ops entries).length = entries.length ∧
    ∀ bs, Bundler.bundle ops entries ≠ Outcome.ok bs := by
  constructor
  · simp [Bundler.bundleResults]
  · intro bs hok
    have hm : Except.error ("load_transformed failed" :: e) ∈
        Bundler.bundleResults ops entries := by
      unfold Bundler.bundleResults
      refine List.mem_map.mpr ⟨(name, path), hmem, ?_⟩
      simp [hfail]
    have hne := buildLocal_ne_ok_of_mem_error _ _ hm
    unfold Bundler.bundle at hok
    cases hb : Bundler.buildLocal (Bundler.bundleResults ops entries) with
    | ok l => exact hne l hb
    | error e2 => rw [hb] at hok; cases hok
    | panicked => rw [hb] at hok; cases hok

/-- Witness for the amended C1, at the concrete two-entry scenario. -/
theorem bundle_entry_failure_yields_no_bundles_witness :
    (Bundler.bundleResults opsOneFailure entsTwo).length = entsTwo.length ∧
    ∀ bs, Bundler.bundle opsOneFailure entsTwo ≠ Outcome.ok bs :=
  bundle_entry_failure_yields_no_bundles opsOneFailure entsTwo "a"
    (FileName.Real "/a.js") ["read error: /a.js"] (by decide) rfl

/-- Counterexample to C2 as stated: with both entries failing to load,
`bundle` returns an error naming only the first failure; the second
failure's message appears nowhere in the returned chain, so the errors are
not reported in one shot. -/
theorem bundle_first_error_only_counterexample :
    Bundler.bundle opsTwoFailures entsTwo =
      Outcome.error ["load_transformed failed", "read error: /a.js"] ∧
    "read error: /b.js" ∉
      (["load_transformed failed", "read error: /a.js"] : List String) := by
  exact ⟨by decide, by decide⟩

/-- C2 as amended: `bundle` does attempt every entry before examining any
error (the collected result vector has one slot per entry), but it then
returns only the first error in entry order rather than an accumulation of
all failures. -/
theorem bundle_returns_first_error (ops : BundlerOps)
    (pre post : List (String × FileName)) (name : String) (path : FileName)
    (e : Err)
    (hpre : ∀ q ∈ pre, ∃ m, ops.load_transformed q.2 = .ok (some m))
    (hfail : ops.load_transformed path = .error e) :
    (Bundler.bundleResults ops (pre ++ (name, path) :: post)).length =
      (pre ++ (name, path) :: post).length ∧
    Bundler.bundle ops (pre ++ (name, path) :: post) =
      Outcome.error ("load_transformed failed" :: e) := by
  constructor
  · simp [Bundler.bundleResults]
  · have hsplit : Bundler.bundleResults ops (pre ++ (name, path) :: post) =
        Bundler.bundleResults ops pre ++
          Except.error ("load_transformed failed" :: e) ::
            Bundler.bundleResults ops post := by
      unfold Bundler.bundleResults
      rw [List.map_append, List.map_cons]
      simp [hfail]
    have hall : ∀ r ∈ Bundler.bundleResults ops pre,
        ∃ n m, r = Except.ok (n, some m) := by
      intro r hr
      unfold Bundler.bundleResults at hr
      obtain ⟨q, hq, rfl⟩ := List.mem_map.mp hr
      obtain ⟨m, hm⟩ := hpre q hq
      exact ⟨q.1, m, by simp [hm]⟩
    have hb := buildLocal_append_error ("load_transformed failed" :: e)
      (Bundler.bundleResults ops post) (Bundler.bundleResults ops pre) hall
    unfold Bundler.bundle
    rw [hsplit, hb]

/-- Witness for the amended C2: one healthy entry before two failing ones;
the result is exactly the first failure's context chain. -/
theorem bundle_returns_first_error_witness :
    (Bundler.bundleResults opsTwoFailures
        ([("c", FileName.Real "/c.js")] ++
          ("a", FileName.Real "/a.js") :: [("b", FileName.Real "/b.js")])).length =
      ([("c", FileName.Real "/c.js")] ++
        ("a", FileName.Real "/a.js") :: [("b", FileName.Real "/b.js")]).length ∧
    Bundler.bundle opsTwoFailures
        ([("c", FileName.Real "/c.js")] ++
          ("a", FileName.Real "/a.js") :: [("b", FileName.Real "/b.js")]) =
      Outcome.error ["load_transformed failed", "read error: /a.js"] :=
  bundle_returns_first_error opsTwoFailures [("c", FileName.Real "/c.js")]
    [("b", FileName.Real "/b.js")] "a" (FileName.Real "/a.js")
    ["read error: /a.js"]
    (by
      rintro q hq
      rcases List.mem_singleton.mp hq with rfl
      exact ⟨⟨1⟩, rfl⟩)
    rfl

/-- C6: running `bundle` over the spec-modelled `load_transformed`, two
distinct entries that reference each other circularly make `bundle` panic
(the `m.unwrap()` at mod.rs line 166) rather than return an error, while
dependency cycles that do not tie two distinct entries together never cause
a panic. -/
theorem bundle_entry_cycle_panics (g : DepGraph)
    (entries : List (String × FileName))
    (ch : List (String × TransformedModule) → Except Err (List Bundle))
    (fin : List Bundle → Except Err (List Bundle)) :
    ((∃ p1 ∈ entries.map Prod.snd, ∃ p2 ∈ entries.map Prod.snd,
        p1 ≠ p2 ∧ g.reaches p1 p2 = true ∧ g.reaches p2 p1 = true) →
      Bundler.bundle
        ⟨load_transformed_spec g (entries.map Prod.snd), ch, fin⟩ entries =
        Outcome.panicked) ∧
    ((¬ ∃ p1 ∈ entries.map Prod.snd, ∃ p2 ∈ entries.map Prod.snd,
        p1 ≠ p2 ∧ g.reaches p1 p2 = true ∧ g.reaches p2 p1 = true) →
      Bundler.bundle
        ⟨load_transformed_spec g (entries.map Prod.snd), ch, fin⟩ entries ≠
        Outcome.panicked) := by
  set paths := entries.map Prod.snd with hpaths
  set ops : BundlerOps := ⟨load_transformed_spec g paths, ch, fin⟩ with hops
  have hall : ∀ r ∈ Bundler.bundleResults ops entries, ∃ n m, r = Except.ok (n, m) := by
    intro r hr
    unfold Bundler.bundleResults at hr
    obtain ⟨q, hq, rfl⟩ := List.mem_map.mp hr
    rw [hops]
    simp only [load_transformed_spec]
    by_cases hc : entryCyclic g paths q.2 = true
    · rw [hc]
      exact ⟨q.1, none, by simp⟩
    · rw [Bool.not_eq_true] at hc
      rw [hc]
      exact ⟨q.1, some ⟨0⟩, by simp⟩
  constructor
  · rintro ⟨p1, hp1, p2, hp2, hne, h12, h21⟩
    have hcyc : entryCyclic g paths p1 = true := by
      unfold entryCyclic
      exact decide_eq_true ⟨hp1, p2, hp2, fun he => hne he.symm, h12, h21⟩
    obtain ⟨a, ha, ha2⟩ := List.mem_map.mp hp1
    have hmem : Except.ok (a.1, (none : Option TransformedModule)) ∈
        Bundler.bundleResults ops entries := by
      unfold Bundler.bundleResults
      refine List.mem_map.mpr ⟨a, ha, ?_⟩
      have : ops.load_transformed a.2 = .ok none := by
        rw [hops]
        simp only [load_transformed_spec, ha2, hcyc]
        rfl
      rw [this]
    have hp := buildLocal_panicked_of_mem_none _ hall ⟨a.1, hmem⟩
    unfold Bundler.bundle
    rw [hp]
  · intro hno
    have hsome : ∀ r ∈ Bundler.bundleResults ops entries,
        ∃ n m, r = Except.ok (n, some m) := by
      intro r hr
      unfold Bundler.bundleResults at hr
      obtain ⟨q, hq, rfl⟩ := List.mem_map.mp hr
      have hc : entryCyclic g paths q.2 = false := by
        by_contra hcc
        rw [Bool.not_eq_false] at hcc
        unfold entryCyclic at hcc
        have := of_decide_eq_true hcc
        obtain ⟨hqmem, q2, hq2, hne, h1, h2⟩ := this
        exact hno ⟨q.2, hqmem, q2, hq2, fun he => hne he.symm, h1, h2⟩
      have : ops.load_transformed q.2 = .ok (some ⟨0⟩) := by
        rw [hops]
        simp only [load_transformed_spec, hc]
        rfl
      rw [this]
      exact ⟨q.1, ⟨0⟩, rfl⟩
    obtain ⟨l, hl⟩ := buildLocal_ok_of_all_some _ hsome
    unfold Bundler.bundle
    rw [hl]
    cases hch : ch l with
    | error e => simp [hch]
    | ok bs =>
      cases hfin : fin bs with
      | error e => simp [hch, hfin]
      | ok bs2 => simp [hch, hfin]

/-- Witness for C6: the entries `a ↦ /a.js` and `b ↦ /b.js` import each
other; `bundle` panics. -/
theorem bundle_entry_cycle_panics_witness :
    Bundler.bundle
      ⟨load_transformed_spec cyclicEntryGraph (entsTwo.map Prod.snd),
        chunkOk, finalizeOk⟩ entsTwo = Outcome.panicked :=
  (bundle_entry_cycle_panics cyclicEntryGraph entsTwo chunkOk finalizeOk).1
    (by decide)

/-- C8: with target environment Node, every core-module specifier resolves
to the synthetic identity `FileName::Custom` of that exact string, for
every base (including non-`Real` ones) and for every filesystem state — the
universally quantified `fs` never enters the result, so the filesystem is
not consulted. -/
theorem node_core_module_custom (fs : FS) (base : FileName) (target : String)
    (h : is_core_module target = true) :
    NodeModulesResolver.resolve TargetEnv.Node fs base target =
      Except.ok (FileName.Custom target) := by
  unfold NodeModulesResolver.resolve
  rw [if_pos ⟨rfl, h⟩]

/-- Witness for C8: `fs` and `path` resolve to their `Custom` identities on
two opposite filesystems (nothing exists / everything exists) and from both
a real and an anonymous base. -/
theorem node_core_module_custom_witness :
    NodeModulesResolver.resolve TargetEnv.Node fsEmpty
        (FileName.Real "/x/y.js") "fs" = Except.ok (FileName.Custom "fs") ∧
    NodeModulesResolver.resolve TargetEnv.Node fsFull
        FileName.Anon "path" = Except.ok (FileName.Custom "path") :=
  ⟨node_core_module_custom fsEmpty (FileName.Real "/x/y.js") "fs" (by decide),
   node_core_module_custom fsFull FileName.Anon "path" (by decide)⟩

/-- C9: from a base that is not a `FileName::Real` path, any specifier that
is not a Node-env core module is an error — filesystem resolution is never
attempted from a synthetic base (the error is the same for every `fs`). -/
theorem node_synthetic_base_errors (env : TargetEnv) (fs : FS)
    (base : FileName) (target : String)
    (hbase : ∀ p, base ≠ FileName.Real p)
    (hcore : is_core_module target = false) :
    NodeModulesResolver.resolve env fs base target =
      Except.error ["node-resolver supports only files"] := by
  unfold NodeModulesResolver.resolve
  rw [if_neg (by rintro ⟨-, hc⟩; rw [hcore] at hc; cases hc)]
  cases base with
  | Real p => exact absurd rfl (hbase p)
  | Custom s => rfl
  | Anon => rfl

/-- Witness for C9: a non-core specifier from a `Custom` base errors even
on a filesystem where every path exists. -/
theorem node_synthetic_base_errors_witness :
    NodeModulesResolver.resolve TargetEnv.Node fsFull
        (FileName.Custom "fs") "./util" =
      Except.error ["node-resolver supports only files"] :=
  node_synthetic_base_errors TargetEnv.Node fsFull (FileName.Custom "fs")
    "./util" (by intro p h; cases h) (by decide)

/-- Every core-module name is a bare specifier: not absolute and not
starting with a `.` or `..` component. -/
theorem core_module_shape (s : String) (h : is_core_module s = true) :
    isAbsolutePath s = false ∧ (pathComps s).headD "" ≠ "." ∧
      (pathComps s).headD "" ≠ ".." := by
  have hmem : s ∈ coreModules := by
    unfold is_core_module List.contains at h
    exact List.mem_of_elem_eq_true h
  have hall : ∀ x ∈ coreModules,
      isAbsolutePath x = false ∧ (pathComps x).headD "" ≠ "." ∧
        (pathComps x).headD "" ≠ ".." := by decide
  exact hall s hmem

/-- With no directory anywhere, the node_modules walk always ends in
`not found`, whatever the starting directory and fuel. -/
theorem resolve_node_modules_no_dirs (fs : FS) (env : TargetEnv)
    (h : ∀ d, fs.isDir d = false) :
    ∀ (fuel : Nat) (dir target : String),
      resolve_node_modules fs env fuel dir target =
        Except.error ["not found"] := by
  intro fuel
  induction fuel with
  | zero => intro dir target; rfl
  | succ n ih =>
    intro dir target
    unfold resolve_node_modules
    simp only [h, Bool.false_eq_true, if_false]
    cases hp : parentPath dir with
    | some parent => simpa using ih parent target
    | none => simp

/-- C10: with target environment Browser, a core-module specifier such as
`fs` receives no special handling — the result of `resolve` from a real
base is exactly the ordinary node_modules walk (first conjunct), and when
no node_modules directory exists anywhere up the chain the walk yields the
`not found` error (second conjunct). -/
theorem browser_core_module_ordinary_walk (fs : FS) (b target : String)
    (hcore : is_core_module target = true) :
    NodeModulesResolver.resolve TargetEnv.Browser fs (FileName.Real b) target =
      (match resolve_node_modules fs TargetEnv.Browser (nodeModulesFuel b)
          ((parentPath b).getD ".") target with
       | .ok p => NodeModulesResolver.wrap fs p
       | .error e => .error e) ∧
    ((∀ d, fs.isDir d = false) →
      NodeModulesResolver.resolve TargetEnv.Browser fs (FileName.Real b) target =
        Except.error ["not found"]) := by
  obtain ⟨habs, hdot, hdotdot⟩ := core_module_shape target hcore
  have hne1 : ¬ (TargetEnv.Browser = TargetEnv.Node ∧
      is_core_module target = true) := by
    rintro ⟨he, -⟩
    cases he
  have hne3 : ¬ (((pathComps target).headD "") = "." ∨
      ((pathComps target).headD "") = "..") := by
    rintro (h | h)
    · exact hdot h
    · exact hdotdot h
  have hmain : NodeModulesResolver.resolve TargetEnv.Browser fs
      (FileName.Real b) target =
      (match resolve_node_modules fs TargetEnv.Browser (nodeModulesFuel b)
          ((parentPath b).getD ".") target with
       | .ok p => NodeModulesResolver.wrap fs p
       | .error e => .error e) := by
    unfold NodeModulesResolver.resolve
    rw [if_neg hne1]
    simp only [habs, Bool.false_eq_true, if_false]
    rw [if_neg hne3]
  refine ⟨hmain, ?_⟩
  intro hdirs
  rw [hmain, resolve_node_modules_no_dirs fs TargetEnv.Browser hdirs]

/-- Witness for C10: on an empty filesystem, resolving `fs` in Browser
mode from `/w/app.js` walks node_modules and fails with `not found`. -/
theorem browser_core_module_ordinary_walk_witness :
    NodeModulesResolver.resolve TargetEnv.Browser fsEmpty
        (FileName.Real "/w/app.js") "fs" = Except.error ["not found"] :=
  (browser_core_module_ordinary_walk fsEmpty "/w/app.js" "fs" (by decide)).2
    (fun _ => rfl)
